import Mathlib

/-!
Shallow embedding of the satellite-inference analysis pipeline
(`src/analysis/__init__.py`): the raster loader's file discovery and
filename-date resolution, the change detector `compare_images`, and the
volume estimator `estimate_volume_changes`.

Modelling conventions:
* `numpy` arrays are a `shape` (the tuple, as a `List Nat`) together with the
  flattened pixel values; floating-point arithmetic is modelled exactly over
  `ℚ` (every quantity the claims mention is produced by `+ - * / abs max sum`
  on values promoted to float, so the rational model is faithful up to
  rounding, which no claim is about).
* Python string operations (`split`, `count`, `isdigit`, comparison by code
  point, glob matching) are modelled by structurally recursive functions on
  the character list of a `String`.
* `print` diagnostics are collected in a returned `List String`; the numeric
  summary lines printed per processed pair are not modelled (no property
  mentions their text), the insufficiency message and the shape-mismatch
  warning lines are.
* A Python `dict` is an insertion-ordered association list with unique keys;
  `return` with no value (Python `None`) is `Option.none`.
-/

namespace SatAnalysis

/-- A loaded raster image: `shape` mirrors `numpy.ndarray.shape` (band-major
tuple) and `data` the flattened pixel values, modelled over `ℚ`. -/
structure Image where
  shape : List Nat
  data : List ℚ
deriving DecidableEq

/-- The `numpy` invariant that an array's flat size is the product of its
shape tuple. -/
def Image.wellFormed (img : Image) : Prop :=
  img.data.length = img.shape.prod

/- ## String primitives (models of the Python `str` operations used) -/

/-- Does the second character list begin with the first? (Python slice
comparison used by glob matching.) -/
def charsLead : List Char → List Char → Bool
  | [], _ => true
  | _ :: _, [] => false
  | a :: as, b :: bs => a == b && charsLead as bs

/-- Does `s` end with `suf`? (the tail of a glob pattern `*.tif`). -/
def strEnds (s suf : String) : Bool :=
  charsLead suf.data.reverse s.data.reverse

/-- Does `s` start with a dot? (glob hides such names from a `*` pattern). -/
def startsWithDot (s : String) : Bool :=
  match s.data with
  | [] => false
  | c :: _ => c == '.'

/-- Splitting a character list on a separator character, Python
`str.split(sep)` semantics (empty pieces are kept). -/
def splitCharAux (c : Char) : List Char → List Char → List (List Char)
  | [], acc => [acc.reverse]
  | x :: xs, acc =>
    if x == c then acc.reverse :: splitCharAux c xs []
    else splitCharAux c xs (x :: acc)

/-- Python `s.split(c)` for a one-character separator. -/
def splitOn1 (c : Char) (s : String) : List String :=
  (splitCharAux c s.data []).map String.mk

/-- Python string `<=`: lexicographic comparison by code point. -/
def charsLe : List Char → List Char → Bool
  | [], _ => true
  | _ :: _, [] => false
  | a :: as, b :: bs =>
    if a.toNat < b.toNat then true
    else if b.toNat < a.toNat then false
    else charsLe as bs

/-- Python string `<=` lifted to `String`. -/
def strLe (a b : String) : Bool :=
  charsLe a.data b.data

/- ## Raster loader: file discovery
(`glob.glob(os.path.join(directory, "*.tif")) +
 glob.glob(os.path.join(directory, "*.tiff"))`) -/

/-- POSIX `glob` match of a directory entry against the pattern `*.tif`:
case-sensitive, and a leading `*` does not match a name starting with a
dot. -/
def globTif (name : String) : Bool :=
  !startsWithDot name && strEnds name ".tif"

/-- POSIX `glob` match of a directory entry against the pattern `*.tiff`. -/
def globTiff (name : String) : Bool :=
  !startsWithDot name && strEnds name ".tiff"

/-- The file list `tiff_files` built by `load_images_from_directory` from the
names present in the directory (non-recursive): the `*.tif` matches followed
by the `*.tiff` matches. -/
def discoverTiffs (entries : List String) : List String :=
  entries.filter globTif ++ entries.filter globTiff

/- ## Raster loader: date resolution from the filename stem -/

/-- `len(part) == 8 and part.isdigit()` — the `YYYYMMDD` test on one stem
segment. -/
def isCompactSeg (s : String) : Bool :=
  s.data.length == 8 && s.data.all Char.isDigit

/-- `len(part) == 10 and part.count('-') == 2` — the `YYYY-MM-DD` test on one
stem segment. -/
def isDashedSeg (s : String) : Bool :=
  s.data.length == 10 && s.data.count '-' == 2

/-- The segment selected by the `for part in parts` loop, with the branch that
fired (`true` = the 8-digit `YYYYMMDD` branch, `false` = the dashed
`YYYY-MM-DD` branch); `none` models the loop's `else` clause (no segment
matched either test). -/
def selectSeg : List String → Option (Bool × String)
  | [] => none
  | p :: ps =>
    if isCompactSeg p then some (true, p)
    else if isDashedSeg p then some (false, p)
    else selectSeg ps

/-- Gregorian leap-year rule, as `datetime` validates dates. -/
def isLeapYear (y : Nat) : Bool :=
  (y % 4 == 0 && y % 100 != 0) || y % 400 == 0

/-- Days in a month, as `datetime` validates dates. -/
def daysInMonth (y m : Nat) : Nat :=
  if m == 2 then (if isLeapYear y then 29 else 28)
  else if m == 4 || m == 6 || m == 9 || m == 11 then 30
  else 31

/-- Numeric value of an all-digit character list. -/
def digitsVal (l : List Char) : Nat :=
  l.foldl (fun n c => n * 10 + (c.toNat - 48)) 0

/-- A year/month/day triple is a date `datetime` accepts (year `1..9999`). -/
def validDate (y m d : Nat) : Bool :=
  1 ≤ y && y ≤ 9999 && 1 ≤ m && m ≤ 12 && 1 ≤ d && d ≤ daysInMonth y m

/-- `datetime.strptime(s, "%Y%m%d")` on an 8-character all-digit segment;
`none` models the `ValueError` path (caught by the surrounding `except`). -/
def parseCompact (s : String) : Option (Nat × Nat × Nat) :=
  if s.data.length == 8 && s.data.all Char.isDigit then
    let y := digitsVal (s.data.take 4)
    let m := digitsVal ((s.data.drop 4).take 2)
    let d := digitsVal (s.data.drop 6)
    if validDate y m d then some (y, m, d) else none
  else none

/-- `datetime.strptime(s, "%Y-%m-%d")` on a 10-character segment with two
dashes (for such inputs `strptime` forces the 4-2-2 digit grouping);
`none` models the `ValueError` path. -/
def parseDashed (s : String) : Option (Nat × Nat × Nat) :=
  match splitOn1 '-' s with
  | [ys, ms, ds] =>
    if ys.data.length == 4 && ms.data.length == 2 && ds.data.length == 2
        && ys.data.all Char.isDigit && ms.data.all Char.isDigit
        && ds.data.all Char.isDigit then
      let y := digitsVal ys.data
      let m := digitsVal ms.data
      let d := digitsVal ds.data
      if validDate y m d then some (y, m, d) else none
    else none
  | _ => none

/-- Zero-padded 2-digit rendering, as `strftime("%m")` / `strftime("%d")`. -/
def pad2 (n : Nat) : String :=
  if n < 10 then "0" ++ toString n else toString n

/-- Zero-padded 4-digit rendering, as `strftime("%Y")` for years `≤ 9999`. -/
def pad4 (n : Nat) : String :=
  if n < 10 then "000" ++ toString n
  else if n < 100 then "00" ++ toString n
  else if n < 1000 then "0" ++ toString n
  else toString n

/-- `date_obj.strftime("%Y-%m-%d")`. -/
def isoOfDate (d : Nat × Nat × Nat) : String :=
  pad4 d.1 ++ "-" ++ pad2 d.2.1 ++ "-" ++ pad2 d.2.2

/-- The ISO date string `load_images_from_directory` records for a file:
the stem's selected segment parsed by the branch that selected it, rendered
`%Y-%m-%d`; both the no-match `else` clause of the loop and a `strptime`
failure fall back to the file-timestamp date `fallback` (given here already
rendered). -/
def extractDateISO (stem fallback : String) : String :=
  match selectSeg (splitOn1 '_' stem) with
  | some (true, p) =>
    match parseCompact p with
    | some d => isoOfDate d
    | none => fallback
  | some (false, p) =>
    match parseDashed p with
    | some d => isoOfDate d
    | none => fallback
  | none => fallback

/- ## Change detector: `compare_images` -/

/-- The per-pair record stored in `results[f"{date1}_to_{date2}"]`. -/
structure ChangeResult where
  difference : List ℚ
  abs_difference : List ℚ
  percentage_change : List ℚ
  total_difference : ℚ
  mean_difference : ℚ
  max_difference : ℚ
  date1 : String
  date2 : String
deriving DecidableEq

/-- `epsilon = 1e-10`, the divide-by-zero guard. -/
def epsilon : ℚ := 1 / 10 ^ 10

/-- `numpy.max` over the flattened array (the model returns `0` on the empty
array, where `numpy` raises; no theorem relies on that case). -/
def listMax : List ℚ → ℚ
  | [] => 0
  | x :: xs => xs.foldl max x

/-- The body of the `compare_images` loop for one matched pair:
`difference = image2 - image1`, `abs_difference = |difference|`,
`percentage_change = difference / (image1 + epsilon) * 100`, and the three
scalar summaries (`numpy.mean` is the sum divided by the element count). -/
def computePair (date1 date2 : String) (img1 img2 : Image) : ChangeResult :=
  let difference := List.zipWith (fun b a => b - a) img2.data img1.data
  let absDiff := difference.map (fun x => |x|)
  let pct := List.zipWith (fun d a => d / (a + epsilon) * 100) difference img1.data
  let total := absDiff.sum
  { difference := difference
    abs_difference := absDiff
    percentage_change := pct
    total_difference := total
    mean_difference := total / (absDiff.length : ℚ)
    max_difference := listMax absDiff
    date1 := date1
    date2 := date2 }

/-- `image_dict[date]` (the dates fed to the loop are always keys of the
dict, so the default is never reached on the inputs the theorems quantify
over). -/
def lookupImage (coll : List (String × Image)) (d : String) : Image :=
  match coll with
  | [] => ⟨[], []⟩
  | kv :: rest => if kv.1 = d then kv.2 else lookupImage rest d

/-- The index pairs `(dates[i], dates[i+1])` of the comparison loop. -/
def adjacentPairs : List String → List (String × String)
  | [] => []
  | [_] => []
  | a :: b :: rest => (a, b) :: adjacentPairs (b :: rest)

/-- `sorted(image_dict.keys())`: Python's stable ascending sort under
code-point lexicographic string comparison. -/
def sortDates (l : List String) : List String :=
  List.insertionSort (fun a b => strLe a b = true) l

/-- The three warning lines printed when a pair's shapes differ. -/
def shapeWarning (d1 d2 : String) (s1 s2 : List Nat) : List String :=
  ["Warning: Images for " ++ d1 ++ " and " ++ d2 ++ " have different shapes",
   "Shape of " ++ d1 ++ ": " ++ toString s1,
   "Shape of " ++ d2 ++ ": " ++ toString s2]

/-- The header line printed for a processed pair (the three numeric summary
lines that follow it are not modelled). -/
def compLog (d1 d2 : String) : List String :=
  ["Comparison from " ++ d1 ++ " to " ++ d2 ++ ":"]

/-- The comparison loop over the adjacent sorted date pairs: a pair with
mismatched shapes contributes only its warning lines (`continue`); a matched
pair appends its `ChangeResult` under the key `f"{date1}_to_{date2}"`. -/
def processPairs (coll : List (String × Image)) :
    List (String × String) → List (String × ChangeResult) × List String
  | [] => ([], [])
  | pq :: rest =>
    if (lookupImage coll pq.1).shape = (lookupImage coll pq.2).shape then
      ((pq.1 ++ "_to_" ++ pq.2,
          computePair pq.1 pq.2 (lookupImage coll pq.1) (lookupImage coll pq.2))
          :: (processPairs coll rest).1,
        compLog pq.1 pq.2 ++ (processPairs coll rest).2)
    else
      ((processPairs coll rest).1,
        shapeWarning pq.1 pq.2 (lookupImage coll pq.1).shape
            (lookupImage coll pq.2).shape ++ (processPairs coll rest).2)

/-- The message printed when `len(image_dict) < 2`. -/
def insufficientMsg : String := "Need at least two images to compare"

/-- `compare_images(image_dict)`: with fewer than two entries it prints the
insufficiency message and executes a bare `return` (Python `None`, here
`Option.none`); otherwise it sorts the dates and runs the comparison loop
over the adjacent pairs. The second component collects the printed
diagnostics. -/
def compareImages (coll : List (String × Image)) :
    Option (List (String × ChangeResult)) × List String :=
  if coll.length < 2 then (none, [insufficientMsg])
  else
    let pr := processPairs coll (adjacentPairs (sortDates (coll.map Prod.fst)))
    (some pr.1, pr.2)

/- ## Volume estimator: `estimate_volume_changes` -/

/-- The record stored per period by `estimate_volume_changes`. -/
structure VolumeEstimate where
  material_removed_m3 : ℚ
  material_added_m3 : ℚ
  net_change_m3 : ℚ
deriving DecidableEq

/-- The body of the `estimate_volume_changes` loop for one period:
`volume_change_per_pixel = difference * pixel_area`, the removed material is
the negated sum of its negative entries, the added material the sum of its
positive entries, and `net_change = material_added - material_removed`. -/
def estimateVolume (difference : List ℚ) (pixel_area : ℚ) : VolumeEstimate :=
  let vcpp := difference.map (fun x => x * pixel_area)
  let removed := -((vcpp.filter (fun x => decide (x < 0))).sum)
  let added := (vcpp.filter (fun x => decide (0 < x))).sum
  { material_removed_m3 := removed
    material_added_m3 := added
    net_change_m3 := added - removed }

/-- `estimate_volume_changes(results, pixel_area)`: one `VolumeEstimate` per
period, keyed like the input. -/
def estimateVolumeChanges (results : List (String × ChangeResult))
    (pixel_area : ℚ) : List (String × VolumeEstimate) :=
  results.map (fun pr => (pr.1, estimateVolume pr.2.difference pixel_area))

/- ## Concrete inputs used by the spec's scenarios -/

/-- A one-entry collection (the fewer-than-two-images scenario). -/
def exSingle : List (String × Image) := [("2023-01-01", Image.mk [1] [0])]

/-- The ordering scenario's collection: dates inserted out of order, all
images of one shape. -/
def exOrder : List (String × Image) :=
  [("2023-03-01", ⟨[1], [1]⟩), ("2023-01-15", ⟨[1], [2]⟩), ("2023-02-10", ⟨[1], [3]⟩)]

/-- The shape-mismatch scenario's collection: the first adjacent pair has
mismatched shapes, the second is valid. -/
def exMismatch : List (String × Image) :=
  [("2023-01-01", ⟨[1, 2], [0, 0]⟩), ("2023-01-02", ⟨[1, 3], [0, 0, 0]⟩),
   ("2023-01-03", ⟨[1, 3], [1, 1, 1]⟩)]

/-- A 2-element image pair for adjudicating the per-pair metric claims. -/
def exImgA : Image := ⟨[1, 2], [1, 3]⟩

/-- Second image of the concrete metric pair. -/
def exImgB : Image := ⟨[1, 2], [4, 1]⟩

/-- The division-guard scenario's earlier image: a single zero pixel. -/
def exZero : Image := ⟨[1], [0]⟩

/-- The division-guard scenario's later image: a single pixel of value 5. -/
def exFive : Image := ⟨[1], [5]⟩

/-- A `ChangeResult` whose signed difference array is the single pixel
`-2.0` (obtained from an actual pair computation). -/
def exNegTwo : ChangeResult :=
  computePair "2023-01-01" "2023-01-02" ⟨[1], [3]⟩ ⟨[1], [1]⟩

/- ## Helper lemmas: the string order used by `sorted` -/

theorem charsLe_total : ∀ as bs : List Char, charsLe as bs = true ∨ charsLe bs as = true := by
  intro as
  induction as with
  | nil => intro bs; left; simp [charsLe]
  | cons a as ih =>
    intro bs
    cases bs with
    | nil => right; simp [charsLe]
    | cons b bs =>
      simp only [charsLe]
      rcases Nat.lt_trichotomy a.toNat b.toNat with h | h | h
      · left; simp [h]
      · have h1 : ¬ a.toNat < b.toNat := by omega
        have h2 : ¬ b.toNat < a.toNat := by omega
        rcases ih bs with hc | hc
        · left; simp [h1, h2, hc]
        · right; simp [h1, h2, hc]
      · right; simp [h]

theorem charsLe_trans : ∀ as bs cs : List Char, charsLe as bs = true →
    charsLe bs cs = true → charsLe as cs = true := by
  intro as
  induction as with
  | nil => intro bs cs _ _; simp [charsLe]
  | cons a as ih =>
    intro bs cs h1 h2
    cases bs with
    | nil => simp [charsLe] at h1
    | cons b bs =>
      cases cs with
      | nil => simp [charsLe] at h2
      | cons c cs =>
        simp only [charsLe] at h1 h2 ⊢
        by_cases hab : a.toNat < b.toNat
        · by_cases hbc : b.toNat < c.toNat
          · have hac : a.toNat < c.toNat := by omega
            simp [hac]
          · by_cases hcb : c.toNat < b.toNat
            · simp [hbc, hcb] at h2
            · have hac : a.toNat < c.toNat := by omega
              simp [hac]
        · by_cases hba : b.toNat < a.toNat
          · simp [hab, hba] at h1
          · simp [hab, hba] at h1
            by_cases hbc : b.toNat < c.toNat
            · have hac : a.toNat < c.toNat := by omega
              simp [hac]
            · by_cases hcb : c.toNat < b.toNat
              · simp [hbc, hcb] at h2
              · simp [hbc, hcb] at h2
                have hnac : ¬ a.toNat < c.toNat := by omega
                have hnca : ¬ c.toNat < a.toNat := by omega
                simp [hnac, hnca]
                exact ih bs cs h1 h2

instance : IsTotal String (fun a b => strLe a b = true) :=
  ⟨fun a b => charsLe_total a.data b.data⟩

instance : IsTrans String (fun a b => strLe a b = true) :=
  ⟨fun a b c => charsLe_trans a.data b.data c.data⟩

/- ## Helper lemmas: list access -/

theorem getD_zipWith_q (f : ℚ → ℚ → ℚ) (as bs : List ℚ) (k : ℕ)
    (h1 : k < as.length) (h2 : k < bs.length) :
    (List.zipWith f as bs).getD k 0 = f (as.getD k 0) (bs.getD k 0) := by
  have hk : k < (List.zipWith f as bs).length := by
    rw [List.length_zipWith]; omega
  rw [List.getD_eq_getElem _ _ hk, List.getD_eq_getElem _ _ h1, List.getD_eq_getElem _ _ h2]
  simp

theorem getD_map_q (f : ℚ → ℚ) (l : List ℚ) (k : ℕ) (h : k < l.length) :
    (l.map f).getD k 0 = f (l.getD k 0) := by
  have hk : k < (l.map f).length := by simpa using h
  rw [List.getD_eq_getElem _ _ hk, List.getD_eq_getElem _ _ h]
  simp

theorem getD_mem_q (l : List ℚ) (k : ℕ) (h : k < l.length) : l.getD k 0 ∈ l := by
  rw [List.getD_eq_getElem _ _ h]
  exact List.getElem_mem h

/- ## Helper lemmas: `numpy.max` -/

theorem le_foldl_max (xs : List ℚ) : ∀ a : ℚ, a ≤ xs.foldl max a := by
  induction xs with
  | nil => intro a; exact le_refl a
  | cons x xs ih => intro a; exact le_trans (le_max_left a x) (ih (max a x))

theorem mem_le_foldl_max (xs : List ℚ) : ∀ (a x : ℚ), x ∈ xs → x ≤ xs.foldl max a := by
  induction xs with
  | nil => intro a x hx; cases hx
  | cons y ys ih =>
    intro a x hx
    rcases List.mem_cons.mp hx with rfl | hmem
    · exact le_trans (le_max_right a x) (le_foldl_max ys (max a x))
    · exact ih (max a y) x hmem

theorem le_listMax (l : List ℚ) (x : ℚ) (hx : x ∈ l) : x ≤ listMax l := by
  cases l with
  | nil => cases hx
  | cons y ys =>
    rcases List.mem_cons.mp hx with rfl | hmem
    · exact le_foldl_max ys x
    · exact mem_le_foldl_max ys y x hmem

/- ## C1 -/

/-- C1 (amended): with fewer than two collection entries, `compare_images`
prints the insufficiency diagnostic and returns `None` (an absent value, not
an empty mapping), raising no fault. -/
theorem compare_insufficient_none_and_signal (coll : List (String × Image))
    (h : coll.length < 2) :
    compareImages coll = (none, [insufficientMsg]) := by
  simp [compareImages, h]

/-- Witness for C1's amended theorem at the one-entry collection. -/
theorem compare_insufficient_none_and_signal_witness :
    compareImages exSingle = (none, [insufficientMsg]) :=
  compare_insufficient_none_and_signal exSingle (by decide)

/-- C1 counterexample: on a one-entry collection `compare_images` yields
`None`, not an empty result mapping, so the claim's "empty result mapping
(not an absent/None value)" fails. -/
theorem compare_single_entry_returns_none :
    (compareImages exSingle).1 = none
    ∧ (compareImages exSingle).1 ≠ some [] := by
  constructor
  · simp [compareImages, exSingle]
  · simp [compareImages, exSingle]

/- ## C2 -/

/-- C2 (amended): the date-resolution loop scans the stem segments in order
and stops at the first segment matching either pattern, testing the 8-digit
pattern before the 10-character two-dash pattern on each individual segment;
an 8-digit segment appearing after an earlier matching 10-character segment
does not take priority. -/
theorem selectSeg_first_match_either_rule (ps : List String) :
    selectSeg ps
      = (ps.find? (fun p => isCompactSeg p || isDashedSeg p)).map
          (fun p => (isCompactSeg p, p)) := by
  induction ps with
  | nil => rfl
  | cons p ps ih =>
    by_cases h1 : isCompactSeg p = true
    · simp [selectSeg, List.find?, h1]
    · by_cases h2 : isDashedSeg p = true
      · simp [selectSeg, List.find?, h1, h2]
      · simp [selectSeg, List.find?, h1, h2, ih]

/-- C2 counterexample: for the stem `2023-01-15_20230116` the code resolves
the date from the earlier 10-character segment (giving `2023-01-15`), not
from the 8-digit segment `20230116` (which would give `2023-01-16`) as the
claim's global 8-digit priority demands. -/
theorem date_rule_priority_counterexample :
    extractDateISO "2023-01-15_20230116" "1970-01-01" = "2023-01-15"
    ∧ extractDateISO "2023-01-15_20230116" "1970-01-01" ≠ "2023-01-16" := by
  constructor
  · decide
  · decide

/- ## C3 -/

/-- C3 (amended): the loader discovers exactly the directory entries (not
starting with a dot) whose name ends in lowercase `.tif` or `.tiff`; the
match is case-sensitive, so a file whose extension differs in letter case is
not discovered. -/
theorem discoverTiffs_mem_iff (entries : List String) (name : String) :
    name ∈ discoverTiffs entries ↔
      name ∈ entries ∧ startsWithDot name = false
        ∧ (strEnds name ".tif" = true ∨ strEnds name ".tiff" = true) := by
  simp only [discoverTiffs, List.mem_append, List.mem_filter, globTif, globTiff,
    Bool.and_eq_true, Bool.not_eq_true']
  constructor
  · rintro (⟨hm, hdot, hend⟩ | ⟨hm, hdot, hend⟩)
    · exact ⟨hm, hdot, Or.inl hend⟩
    · exact ⟨hm, hdot, Or.inr hend⟩
  · rintro ⟨hm, hdot, hend | hend⟩
    · exact Or.inl ⟨hm, hdot, hend⟩
    · exact Or.inr ⟨hm, hdot, hend⟩

/-- C3 counterexample: a directory whose only entry is `photo.TIF` yields an
empty discovery list, so the claimed case-insensitive matching fails. -/
theorem uppercase_tif_not_discovered :
    discoverTiffs ["photo.TIF"] = [] ∧ "photo.TIF" ∉ discoverTiffs ["photo.TIF"] := by
  constructor
  · decide
  · decide

/- ## C9 -/

/-- C9: the change detector is deterministic — run twice on the same
collection it returns identical result mappings (same keys in the same
order, identical arrays and scalar summaries) and identical diagnostics. -/
theorem compare_images_deterministic (c1 c2 : List (String × Image))
    (h : c1 = c2) : compareImages c1 = compareImages c2 := by
  rw [h]

/-- Witness for C9 at the ordering scenario's collection. -/
theorem compare_images_deterministic_witness :
    compareImages exOrder = compareImages exOrder :=
  compare_images_deterministic exOrder exOrder rfl

/- ## C4 -/

/-- C4: for a matched-shape pair, each difference entry is later minus
earlier, each absolute-difference entry is the absolute value of the
difference entry, the total is the sum of the absolute differences, the mean
is the total divided by the pixel count, and the maximum dominates every
absolute-difference entry. -/
theorem compare_pair_metrics (d1 d2 : String) (img1 img2 : Image)
    (hsh : img1.shape = img2.shape) (h1 : img1.wellFormed) (h2 : img2.wellFormed)
    (k : ℕ) (hk : k < img1.shape.prod) :
    (computePair d1 d2 img1 img2).difference.getD k 0
        = img2.data.getD k 0 - img1.data.getD k 0
    ∧ (computePair d1 d2 img1 img2).abs_difference.getD k 0
        = |(computePair d1 d2 img1 img2).difference.getD k 0|
    ∧ (computePair d1 d2 img1 img2).total_difference
        = (computePair d1 d2 img1 img2).abs_difference.sum
    ∧ (computePair d1 d2 img1 img2).mean_difference
        = (computePair d1 d2 img1 img2).total_difference / (img1.shape.prod : ℚ)
    ∧ (computePair d1 d2 img1 img2).abs_difference.getD k 0
        ≤ (computePair d1 d2 img1 img2).max_difference := by
  have hl1 : k < img1.data.length := by rw [h1]; exact hk
  have hl2 : k < img2.data.length := by rw [h2, ← hsh]; exact hk
  have hdiff : (computePair d1 d2 img1 img2).difference
      = List.zipWith (fun b a => b - a) img2.data img1.data := rfl
  have habs : (computePair d1 d2 img1 img2).abs_difference
      = (computePair d1 d2 img1 img2).difference.map (fun x => |x|) := rfl
  have hdl : k < (computePair d1 d2 img1 img2).difference.length := by
    rw [hdiff, List.length_zipWith]; omega
  have halen : (computePair d1 d2 img1 img2).abs_difference.length = img1.shape.prod := by
    rw [habs, List.length_map, hdiff, List.length_zipWith, h1, h2, ← hsh]
    exact Nat.min_self _
  refine ⟨?_, ?_, rfl, ?_, ?_⟩
  · rw [hdiff]
    exact getD_zipWith_q _ _ _ k hl2 hl1
  · rw [habs]
    exact getD_map_q _ _ k hdl
  · have hmean : (computePair d1 d2 img1 img2).mean_difference
        = (computePair d1 d2 img1 img2).total_difference
            / ((computePair d1 d2 img1 img2).abs_difference.length : ℚ) := rfl
    rw [hmean, halen]
  · have hmax : (computePair d1 d2 img1 img2).max_difference
        = listMax (computePair d1 d2 img1 img2).abs_difference := rfl
    rw [hmax]
    exact le_listMax _ _ (getD_mem_q _ k (by rw [halen]; exact hk))

/-- Witness for C4 at a concrete 2-pixel matched pair, index 0. -/
theorem compare_pair_metrics_witness :
    (computePair "2023-01-01" "2023-01-02" exImgA exImgB).difference.getD 0 0
        = exImgB.data.getD 0 0 - exImgA.data.getD 0 0
    ∧ (computePair "2023-01-01" "2023-01-02" exImgA exImgB).abs_difference.getD 0 0
        = |(computePair "2023-01-01" "2023-01-02" exImgA exImgB).difference.getD 0 0|
    ∧ (computePair "2023-01-01" "2023-01-02" exImgA exImgB).total_difference
        = (computePair "2023-01-01" "2023-01-02" exImgA exImgB).abs_difference.sum
    ∧ (computePair "2023-01-01" "2023-01-02" exImgA exImgB).mean_difference
        = (computePair "2023-01-01" "2023-01-02" exImgA exImgB).total_difference
            / (exImgA.shape.prod : ℚ)
    ∧ (computePair "2023-01-01" "2023-01-02" exImgA exImgB).abs_difference.getD 0 0
        ≤ (computePair "2023-01-01" "2023-01-02" exImgA exImgB).max_difference :=
  compare_pair_metrics "2023-01-01" "2023-01-02" exImgA exImgB rfl rfl rfl 0 (by decide)

/- ## C7 -/

/-- C7: each percentage-change entry is the difference entry divided by the
earlier entry plus `epsilon = 1e-10`, times 100, so the denominator is
nonzero whenever the earlier pixel is exactly zero; concretely, the pixel
`earlier = 0, later = 5` yields `difference = 5` and
`percentage_change = 5 / 1e-10 × 100 = 5×10^12`, a finite value. -/
theorem percentage_change_guarded (d1 d2 : String) (img1 img2 : Image)
    (hsh : img1.shape = img2.shape) (h1 : img1.wellFormed) (h2 : img2.wellFormed)
    (k : ℕ) (hk : k < img1.shape.prod) :
    (computePair d1 d2 img1 img2).percentage_change.getD k 0
        = (computePair d1 d2 img1 img2).difference.getD k 0
            / (img1.data.getD k 0 + epsilon) * 100
    ∧ (img1.data.getD k 0 = 0 → img1.data.getD k 0 + epsilon ≠ 0)
    ∧ (computePair "2023-01-01" "2023-01-02" exZero exFive).difference = [5]
    ∧ (computePair "2023-01-01" "2023-01-02" exZero exFive).percentage_change
        = [5000000000000] := by
  have hl1 : k < img1.data.length := by rw [h1]; exact hk
  have hl2 : k < img2.data.length := by rw [h2, ← hsh]; exact hk
  have hdiff : (computePair d1 d2 img1 img2).difference
      = List.zipWith (fun b a => b - a) img2.data img1.data := rfl
  have hdl : k < (computePair d1 d2 img1 img2).difference.length := by
    rw [hdiff, List.length_zipWith]; omega
  have hpct : (computePair d1 d2 img1 img2).percentage_change
      = List.zipWith (fun d a => d / (a + epsilon) * 100)
          (computePair d1 d2 img1 img2).difference img1.data := rfl
  refine ⟨?_, ?_, ?_, ?_⟩
  · rw [hpct]
    exact getD_zipWith_q _ _ _ k hdl hl1
  · intro h0
    rw [h0]
    norm_num [epsilon]
  · norm_num [computePair, exZero, exFive]
  · norm_num [computePair, exZero, exFive, epsilon]

/-- Witness for C7 at the division-guard scenario (earlier 0, later 5). -/
theorem percentage_change_guarded_witness :
    (computePair "2023-01-01" "2023-01-02" exZero exFive).percentage_change.getD 0 0
        = (computePair "2023-01-01" "2023-01-02" exZero exFive).difference.getD 0 0
            / (exZero.data.getD 0 0 + epsilon) * 100
    ∧ (exZero.data.getD 0 0 = 0 → exZero.data.getD 0 0 + epsilon ≠ 0)
    ∧ (computePair "2023-01-01" "2023-01-02" exZero exFive).difference = [5]
    ∧ (computePair "2023-01-01" "2023-01-02" exZero exFive).percentage_change
        = [5000000000000] :=
  percentage_change_guarded "2023-01-01" "2023-01-02" exZero exFive rfl rfl rfl 0 (by decide)

/- ## C5 -/

/-- C5: the volume estimator reports `material_removed` as the negated sum of
the negative entries of `difference × pixel_area` (a positive magnitude),
`material_added` as the sum of the positive entries, and
`net_change = material_added − material_removed`; the single-pixel
difference `-2.0` with `pixel_area = 100` yields removed 200, added 0, net
-200. -/
theorem estimate_volume_spec (results : List (String × ChangeResult)) (pa : ℚ)
    (p : String) (r : ChangeResult) (hmem : (p, r) ∈ results) :
    (p, estimateVolume r.difference pa) ∈ estimateVolumeChanges results pa
    ∧ (estimateVolume r.difference pa).material_removed_m3
        = -(((r.difference.map (fun x => x * pa)).filter (fun x => decide (x < 0))).sum)
    ∧ (estimateVolume r.difference pa).material_added_m3
        = ((r.difference.map (fun x => x * pa)).filter (fun x => decide (0 < x))).sum
    ∧ (estimateVolume r.difference pa).net_change_m3
        = (estimateVolume r.difference pa).material_added_m3
            - (estimateVolume r.difference pa).material_removed_m3
    ∧ (estimateVolume [(-2 : ℚ)] 100).material_removed_m3 = 200
    ∧ (estimateVolume [(-2 : ℚ)] 100).material_added_m3 = 0
    ∧ (estimateVolume [(-2 : ℚ)] 100).net_change_m3 = -200 := by
  refine ⟨?_, rfl, rfl, rfl, ?_, ?_, ?_⟩
  · exact List.mem_map.mpr ⟨(p, r), hmem, rfl⟩
  · norm_num [estimateVolume]
  · norm_num [estimateVolume]
  · norm_num [estimateVolume]

/-- Witness for C5 at a one-period result set holding the `-2.0` pixel. -/
theorem estimate_volume_spec_witness :
    ("2023-01-01_to_2023-01-02", estimateVolume exNegTwo.difference 100)
      ∈ estimateVolumeChanges [("2023-01-01_to_2023-01-02", exNegTwo)] 100 :=
  (estimate_volume_spec [("2023-01-01_to_2023-01-02", exNegTwo)] 100
    "2023-01-01_to_2023-01-02" exNegTwo (List.mem_singleton.mpr rfl)).1

/- ## Helper lemmas: signed sums over filtered lists -/

theorem sum_filter_neg_nonpos (l : List ℚ) :
    (l.filter (fun x => decide (x < 0))).sum ≤ 0 := by
  induction l with
  | nil => simp
  | cons x xs ih =>
    by_cases hx : x < 0
    · have h2 : decide (x < 0) = true := by simpa using hx
      simp only [List.filter_cons, if_pos h2, List.sum_cons]
      linarith
    · have h2 : ¬ (decide (x < 0) = true) := by simpa using hx
      simp only [List.filter_cons, if_neg h2]
      exact ih

theorem sum_filter_pos_nonneg (l : List ℚ) :
    0 ≤ (l.filter (fun x => decide (0 < x))).sum := by
  induction l with
  | nil => simp
  | cons x xs ih =>
    by_cases hx : 0 < x
    · have h2 : decide (0 < x) = true := by simpa using hx
      simp only [List.filter_cons, if_pos h2, List.sum_cons]
      linarith
    · have h2 : ¬ (decide (0 < x) = true) := by simpa using hx
      simp only [List.filter_cons, if_neg h2]
      exact ih

theorem sum_filter_split (l : List ℚ) :
    (l.filter (fun x => decide (0 < x))).sum
      + (l.filter (fun x => decide (x < 0))).sum = l.sum := by
  induction l with
  | nil => simp
  | cons x xs ih =>
    rcases lt_trichotomy x 0 with hx | hx | hx
    · have h1 : ¬ (decide (0 < x) = true) := by simp; linarith
      have h2 : decide (x < 0) = true := by simpa using hx
      simp only [List.filter_cons, if_neg h1, if_pos h2, List.sum_cons]
      linarith
    · subst hx
      have h1 : ¬ (decide ((0 : ℚ) < 0) = true) := by simp
      simp only [List.filter_cons, if_neg h1, List.sum_cons, zero_add]
      exact ih
    · have h1 : decide (0 < x) = true := by simpa using hx
      have h2 : ¬ (decide (x < 0) = true) := by simp; linarith
      simp only [List.filter_cons, if_pos h1, if_neg h2, List.sum_cons]
      linarith

theorem sum_map_mul_q (l : List ℚ) (a : ℚ) :
    (l.map (fun x => x * a)).sum = l.sum * a := by
  induction l with
  | nil => simp
  | cons x xs ih => simp [ih, add_mul]

/- ## Helper lemmas: per-period volume facts -/

theorem estimateVolume_removed_nonneg (diff : List ℚ) (pa : ℚ) :
    0 ≤ (estimateVolume diff pa).material_removed_m3 := by
  have h := sum_filter_neg_nonpos (diff.map (fun x => x * pa))
  show 0 ≤ -(((diff.map (fun x => x * pa)).filter (fun x => decide (x < 0))).sum)
  linarith

theorem estimateVolume_added_nonneg (diff : List ℚ) (pa : ℚ) :
    0 ≤ (estimateVolume diff pa).material_added_m3 :=
  sum_filter_pos_nonneg (diff.map (fun x => x * pa))

theorem estimateVolume_net (diff : List ℚ) (pa : ℚ) :
    (estimateVolume diff pa).net_change_m3 = pa * diff.sum := by
  have h := sum_filter_split (diff.map (fun x => x * pa))
  have h2 := sum_map_mul_q diff pa
  show ((diff.map (fun x => x * pa)).filter (fun x => decide (0 < x))).sum
      - -(((diff.map (fun x => x * pa)).filter (fun x => decide (x < 0))).sum)
      = pa * diff.sum
  rw [mul_comm]
  linarith

/- ## C10 -/

/-- C10: every volume estimate has nonnegative removed and added material,
and its net change is the pixel area times the plain sum of the period's
signed difference array (zero pixels contribute to neither filtered sum). -/
theorem volume_nonneg_and_net (results : List (String × ChangeResult)) (pa : ℚ)
    (p : String) (est : VolumeEstimate)
    (h : (p, est) ∈ estimateVolumeChanges results pa) :
    0 ≤ est.material_removed_m3 ∧ 0 ≤ est.material_added_m3
    ∧ ∃ r, (p, r) ∈ results ∧ est.net_change_m3 = pa * r.difference.sum := by
  rcases List.mem_map.mp h with ⟨pr, hpr, heq⟩
  obtain ⟨q, r⟩ := pr
  rw [Prod.mk.injEq] at heq
  obtain ⟨rfl, rfl⟩ := heq
  exact ⟨estimateVolume_removed_nonneg r.difference pa,
    estimateVolume_added_nonneg r.difference pa,
    ⟨r, hpr, estimateVolume_net r.difference pa⟩⟩

/-- Witness for C10 at a one-period estimate mapping. -/
theorem volume_nonneg_and_net_witness :
    0 ≤ (estimateVolume exNegTwo.difference 100).material_removed_m3 :=
  (volume_nonneg_and_net [("2023-01-01_to_2023-01-02", exNegTwo)] 100
    "2023-01-01_to_2023-01-02" (estimateVolume exNegTwo.difference 100)
    (by simp [estimateVolumeChanges])).1

/- ## Helper lemmas: the comparison loop -/

theorem processPairs_keys (coll : List (String × Image)) :
    ∀ pairs : List (String × String),
    ((processPairs coll pairs).1).map Prod.fst
      = (pairs.filter (fun pq =>
            decide ((lookupImage coll pq.1).shape = (lookupImage coll pq.2).shape))).map
          (fun pq => pq.1 ++ "_to_" ++ pq.2) := by
  intro pairs
  induction pairs with
  | nil => rfl
  | cons pq rest ih =>
    by_cases h : (lookupImage coll pq.1).shape = (lookupImage coll pq.2).shape
    · have hd : decide ((lookupImage coll pq.1).shape = (lookupImage coll pq.2).shape)
          = true := by simpa using h
      simp only [processPairs, if_pos h, List.filter_cons, hd, if_true, List.map_cons, ih]
    · have hd : ¬ (decide ((lookupImage coll pq.1).shape = (lookupImage coll pq.2).shape)
          = true) := by simpa using h
      simp only [processPairs, if_neg h, List.filter_cons, if_neg hd, ih]

theorem processPairs_warning_mem (coll : List (String × Image)) :
    ∀ (pairs : List (String × String)) (pq : String × String),
    pq ∈ pairs →
    (lookupImage coll pq.1).shape ≠ (lookupImage coll pq.2).shape →
    ∀ s ∈ shapeWarning pq.1 pq.2 (lookupImage coll pq.1).shape (lookupImage coll pq.2).shape,
      s ∈ (processPairs coll pairs).2 := by
  intro pairs
  induction pairs with
  | nil =>
    intro pq h
    cases h
  | cons hd rest ih =>
    intro pq hpq hne s hs
    rcases List.mem_cons.mp hpq with rfl | hmem
    · simp only [processPairs, if_neg hne]
      exact List.mem_append_left _ hs
    · by_cases hhd : (lookupImage coll hd.1).shape = (lookupImage coll hd.2).shape
      · simp only [processPairs, if_pos hhd]
        exact List.mem_append_right _ (ih pq hmem hne s hs)
      · simp only [processPairs, if_neg hhd]
        exact List.mem_append_right _ (ih pq hmem hne s hs)

theorem processPairs_result_mem (coll : List (String × Image)) :
    ∀ (pairs : List (String × String)) (pq : String × String),
    pq ∈ pairs →
    (lookupImage coll pq.1).shape = (lookupImage coll pq.2).shape →
    (pq.1 ++ "_to_" ++ pq.2,
      computePair pq.1 pq.2 (lookupImage coll pq.1) (lookupImage coll pq.2))
      ∈ (processPairs coll pairs).1 := by
  intro pairs
  induction pairs with
  | nil =>
    intro pq h
    cases h
  | cons hd rest ih =>
    intro pq hpq hsh
    rcases List.mem_cons.mp hpq with rfl | hmem
    · simp only [processPairs, if_pos hsh]
      exact List.mem_cons_self _ _
    · by_cases hhd : (lookupImage coll hd.1).shape = (lookupImage coll hd.2).shape
      · simp only [processPairs, if_pos hhd]
        exact List.mem_cons_of_mem _ (ih pq hmem hsh)
      · simp only [processPairs, if_neg hhd]
        exact ih pq hmem hsh

theorem adjacentPairs_mem : ∀ (l : List String) (a b : String),
    (a, b) ∈ adjacentPairs l → a ∈ l ∧ b ∈ l := by
  intro l
  induction l with
  | nil =>
    intro a b h
    simp [adjacentPairs] at h
  | cons x xs ih =>
    cases xs with
    | nil =>
      intro a b h
      simp [adjacentPairs] at h
    | cons y ys =>
      intro a b h
      rw [show adjacentPairs (x :: y :: ys) = (x, y) :: adjacentPairs (y :: ys) from rfl] at h
      rcases List.mem_cons.mp h with heq | hmem
      · rw [Prod.mk.injEq] at heq
        obtain ⟨rfl, rfl⟩ := heq
        exact ⟨List.mem_cons_self _ _, List.mem_cons_of_mem _ (List.mem_cons_self _ _)⟩
      · have hm := ih a b hmem
        exact ⟨List.mem_cons_of_mem _ hm.1, List.mem_cons_of_mem _ hm.2⟩

theorem key_inj : ∀ d1 d2 e1 e2 : String, d1.length = 10 → e1.length = 10 →
    d1 ++ "_to_" ++ d2 = e1 ++ "_to_" ++ e2 → d1 = e1 ∧ d2 = e2 := by
  intro d1 d2 e1 e2
  obtain ⟨l1⟩ := d1
  obtain ⟨l2⟩ := d2
  obtain ⟨m1⟩ := e1
  obtain ⟨m2⟩ := e2
  intro h1 h2 h
  have hd : l1 ++ ("_to_".data ++ l2) = m1 ++ ("_to_".data ++ m2) := by
    have hc := congrArg String.data h
    simpa [List.append_assoc] using hc
  have hlen : l1.length = m1.length := by
    have h1 : l1.length = 10 := h1
    have h2 : m1.length = 10 := h2
    omega
  obtain ⟨he1, hrest⟩ := List.append_inj hd hlen
  have he2 : l2 = m2 := List.append_cancel_left hrest
  exact ⟨by rw [he1], by rw [he2]⟩

/- ## C6 -/

/-- C6: the change detector traverses date pairs in ascending lexicographic
order of the ISO date keys (`sorted` produces an ascending permutation of
the keys), the result's insertion order follows that traversal with keys
formatted `date1_to_date2`, and on the dates 2023-03-01, 2023-01-15,
2023-02-10 the keys produced are exactly `2023-01-15_to_2023-02-10` then
`2023-02-10_to_2023-03-01`, in that order. -/
theorem compare_sorted_order :
    (∀ coll : List (String × Image), 2 ≤ coll.length →
      (compareImages coll).1.map (fun rs => rs.map Prod.fst)
        = some (((adjacentPairs (sortDates (coll.map Prod.fst))).filter
            (fun pq =>
              decide ((lookupImage coll pq.1).shape = (lookupImage coll pq.2).shape))).map
            (fun pq => pq.1 ++ "_to_" ++ pq.2)))
    ∧ (∀ l : List String,
        List.Sorted (fun a b => strLe a b = true) (sortDates l)
        ∧ List.Perm (sortDates l) l)
    ∧ (compareImages exOrder).1.map (fun rs => rs.map Prod.fst)
        = some ["2023-01-15_to_2023-02-10", "2023-02-10_to_2023-03-01"] := by
  refine ⟨?_, ?_, ?_⟩
  · intro coll hlen
    have hnot : ¬ coll.length < 2 := by omega
    simp only [compareImages, if_neg hnot, Option.map_some']
    rw [processPairs_keys]
  · intro l
    exact ⟨List.sorted_insertionSort _ l, List.perm_insertionSort _ l⟩
  · decide

/-- Witness for C6 at the ordering scenario's collection. -/
theorem compare_sorted_order_witness :
    (compareImages exOrder).1.map (fun rs => rs.map Prod.fst)
      = some (((adjacentPairs (sortDates (exOrder.map Prod.fst))).filter
          (fun pq =>
            decide ((lookupImage exOrder pq.1).shape = (lookupImage exOrder pq.2).shape))).map
          (fun pq => pq.1 ++ "_to_" ++ pq.2)) :=
  compare_sorted_order.1 exOrder (by decide)

/- ## C8 -/

/-- C8: an adjacent sorted date pair with mismatched shapes produces no
result entry and its warning lines (naming both shapes) are emitted, while
every adjacent pair with matching shapes still produces its entry; the run
is never aborted (the result is still a mapping, over all matching
pairs). -/
theorem shape_mismatch_pair_skipped (coll : List (String × Image)) (d1 d2 : String)
    (rs : List (String × ChangeResult))
    (hlen : 2 ≤ coll.length)
    (hiso : ∀ d ∈ coll.map Prod.fst, d.length = 10)
    (hadj : (d1, d2) ∈ adjacentPairs (sortDates (coll.map Prod.fst)))
    (hne : (lookupImage coll d1).shape ≠ (lookupImage coll d2).shape)
    (hrs : (compareImages coll).1 = some rs) :
    (d1 ++ "_to_" ++ d2) ∉ rs.map Prod.fst
    ∧ (∀ s ∈ shapeWarning d1 d2 (lookupImage coll d1).shape (lookupImage coll d2).shape,
        s ∈ (compareImages coll).2)
    ∧ ∀ e1 e2, (e1, e2) ∈ adjacentPairs (sortDates (coll.map Prod.fst)) →
        (lookupImage coll e1).shape = (lookupImage coll e2).shape →
        (e1 ++ "_to_" ++ e2,
          computePair e1 e2 (lookupImage coll e1) (lookupImage coll e2)) ∈ rs := by
  have hnot : ¬ coll.length < 2 := by omega
  have hcmp : (compareImages coll).1
      = some (processPairs coll (adjacentPairs (sortDates (coll.map Prod.fst)))).1 := by
    simp only [compareImages, if_neg hnot]
  have hrs' : rs = (processPairs coll (adjacentPairs (sortDates (coll.map Prod.fst)))).1 := by
    rw [hcmp] at hrs
    exact (Option.some_inj.mp hrs).symm
  have hlogs : (compareImages coll).2
      = (processPairs coll (adjacentPairs (sortDates (coll.map Prod.fst)))).2 := by
    simp only [compareImages, if_neg hnot]
  have hd1 : d1 ∈ coll.map Prod.fst :=
    ((List.perm_insertionSort _ _).mem_iff).mp (adjacentPairs_mem _ d1 d2 hadj).1
  refine ⟨?_, ?_, ?_⟩
  · intro hkey
    rw [hrs', processPairs_keys] at hkey
    rcases List.mem_map.mp hkey with ⟨pq, hpqf, hfmt⟩
    rcases List.mem_filter.mp hpqf with ⟨hpqadj, hpqsh⟩
    have hsh : (lookupImage coll pq.1).shape = (lookupImage coll pq.2).shape :=
      of_decide_eq_true hpqsh
    have hpq1 : pq.1 ∈ coll.map Prod.fst :=
      ((List.perm_insertionSort _ _).mem_iff).mp (adjacentPairs_mem _ pq.1 pq.2 hpqadj).1
    obtain ⟨hq1, hq2⟩ := key_inj pq.1 pq.2 d1 d2 (hiso _ hpq1) (hiso _ hd1) hfmt
    rw [hq1, hq2] at hsh
    exact hne hsh
  · intro s hs
    rw [hlogs]
    exact processPairs_warning_mem coll _ (d1, d2) hadj hne s hs
  · intro e1 e2 he hsh
    rw [hrs']
    exact processPairs_result_mem coll _ (e1, e2) he hsh

/-- Witness for C8 at the shape-mismatch scenario's collection. -/
theorem shape_mismatch_pair_skipped_witness :
    ("2023-01-01" ++ "_to_" ++ "2023-01-02")
      ∉ (((compareImages exMismatch).1.getD []).map Prod.fst) :=
  (shape_mismatch_pair_skipped exMismatch "2023-01-01" "2023-01-02"
    ((compareImages exMismatch).1.getD [])
    (by decide)
    (by
      intro d hd
      rw [show exMismatch.map Prod.fst
          = ["2023-01-01", "2023-01-02", "2023-01-03"] from rfl] at hd
      simp at hd
      rcases hd with rfl | rfl | rfl <;> rfl)
    (by decide)
    (by decide)
    rfl).1

end SatAnalysis
